import Mathlib

/-!
Shallow embedding of the eth-rpc-check tool (src/chains.rs, src/rpc.rs,
src/stats.rs) and proofs about the claims of its specification.

Modelling conventions:
* f64 latencies and durations are modelled as exact rationals (ℚ).
* Wall-clock timing (`Instant::now` / `start.elapsed()`) is modelled by
  assigning a symbolic duration to every awaited operation (connection
  establishment, request send, body read, response wait); synchronous
  in-process work takes zero time.  `start.elapsed()` at a program point
  equals the sum of the durations of the awaited operations performed
  between `Instant::now()` and that point.
* JSON values are a standard inductive; parsing done by the external
  serde_json library is modelled as an oracle input (`Option Json`:
  `none` = parse failure), since the parser is an external collaborator.
* The network is an oracle (`HttpNet`, `WsNet`) describing what the remote
  side does for one request: whether each I/O step succeeds, how long it
  takes, and which event wins the response/timeout race.
* `tokio::time::sleep` throttling and `println!` debug output are I/O with
  no effect on the returned data and are not modelled.
-/

namespace EthRpc

/-- JSON value, mirroring the subset of serde_json::Value the program uses. -/
inductive Json where
  | null : Json
  | bool : Bool → Json
  | num : ℚ → Json
  | str : String → Json
  | arr : List Json → Json
  | obj : List (String × Json) → Json

/-- Field lookup on a JSON object: serde_json's `Value::get(key)`; `none`
on non-objects and missing keys. -/
def Json.get : Json → String → Option Json
  | Json.obj fields, key => (fields.find? (fun p => p.1 = key)).map (fun p => p.2)
  | _, _ => none

/-- String extraction: serde_json's `Value::as_str`. -/
def Json.asStr : Json → Option String
  | Json.str s => some s
  | _ => none

/-- Connection type, from src/chains.rs (`ConnectionType`). -/
inductive ConnectionType where
  | Http : ConnectionType
  | WebSocket : ConnectionType
deriving DecidableEq, Repr

/-- A chain and its RPC endpoint, from src/chains.rs (`Chain`). -/
structure Chain where
  name : String
  rpc_url : String
  connection_type : ConnectionType
deriving DecidableEq, Repr

/-- Constructor `Chain::new`: the connection type is inferred from the URL
scheme (`ws://` or `wss://` means WebSocket, anything else HTTP). -/
def Chain.new (name : String) (rpc_url : String) : Chain :=
  let connection_type :=
    if rpc_url.startsWith "ws://" || rpc_url.startsWith "wss://" then
      ConnectionType.WebSocket
    else
      ConnectionType.Http
  { name := name, rpc_url := rpc_url, connection_type := connection_type }

/-- An RPC method to test, from src/methods.rs (`RpcMethod`). -/
structure RpcMethod where
  name : String
  params : List Json
  description : String

/-- Result of one RPC call attempt, from src/rpc.rs (`RpcResult`).
`timestamp` models `chrono::Utc::now()` as an abstract clock value. -/
structure RpcResult where
  chain : String
  endpoint : String
  method : String
  success : Bool
  latency_ms : ℚ
  error : Option String
  timestamp : ℕ
deriving DecidableEq, Repr

/-- Request envelope `{"jsonrpc":"2.0","id":1,"method":...,"params":...}`
built by both transport paths in src/rpc.rs. -/
def rpcEnvelope (method : String) (params : List Json) : Json :=
  Json.obj [("jsonrpc", Json.str "2.0"), ("id", Json.num 1),
            ("method", Json.str method), ("params", Json.arr params)]

/-- Network oracle for one HTTP request (src/rpc.rs `send_http_rpc_request`):
`sendOk` is whether `client.post(..).send().await` succeeds; `dSend` is its
duration (request transmitted and response returned); `bodyJson` is the
result of `response.json().await` (`none` = read/parse failure) and `dBody`
its duration. -/
structure HttpNet where
  sendOk : Bool
  dSend : ℚ
  bodyJson : Option Json
  dBody : ℚ

/-- Embedding of `send_http_rpc_request` (src/rpc.rs lines 33-75).
`Instant::now()` is taken at function entry; `start.elapsed()` is read
immediately after `send().await` returns and before `response.json().await`,
so the reported latency is exactly the duration of the send step. -/
def send_http_rpc_request (net : HttpNet) (method : String) (params : List Json) :
    Except String (Bool × ℚ × Option String × Json) :=
  let _request_body := rpcEnvelope method params
  if !net.sendOk then
    Except.error "发送 HTTP RPC 请求失败"
  else
    let latency := net.dSend
    match net.bodyJson with
    | none => Except.error "解析 HTTP RPC 响应失败"
    | some response_body =>
      let success := (response_body.get "error").isNone
      let error :=
        if !success then
          ((response_body.get "error").bind (fun e => e.get "message")).bind Json.asStr
        else
          none
      Except.ok (success, latency, error, response_body)

/-- Outcome of the response/timeout race on the WebSocket path
(`future::select` in src/rpc.rs lines 132-152, then the frame match):
a text frame carrying the serde_json parse of its payload, a non-text
frame, a stream error, stream closed, or the 15 s timeout winning. -/
inductive WsEvent where
  | frameText : Option Json → WsEvent
  | frameOther : WsEvent
  | frameErr : String → WsEvent
  | closed : WsEvent
  | timeout : WsEvent

/-- Network oracle for one WebSocket request (src/rpc.rs
`send_ws_rpc_request`): URL parse and connection-establishment results,
the send result, the winning race event, the close-frame send result,
and the durations of the awaited steps. -/
structure WsNet where
  urlOk : Bool
  connectOk : Bool
  dConnect : ℚ
  sendOk : Bool
  dSend : ℚ
  event : WsEvent
  dEvent : ℚ
  closeSendOk : Bool

/-- Embedding of `send_ws_rpc_request` (src/rpc.rs lines 78-202).  The
second component counts `connect_async` invocations performed by this call
(1 whenever the URL parses, 0 otherwise): the function dials a fresh
connection on every invocation and there is no connection registry.
`Instant::now()` is taken at function entry, before URL parsing and
`connect_async`, and `start.elapsed()` is read after the race is won, so a
successful attempt reports `dConnect + dSend + dEvent`.  A failure to send
the final close frame (`closeSendOk = false`) is only logged: the
already-computed outcome is returned unchanged. -/
def send_ws_rpc_request (net : WsNet) (method : String) (params : List Json) :
    Except String (Bool × ℚ × Option String × Json) × ℕ :=
  let _request_body := rpcEnvelope method params
  if !net.urlOk then
    (Except.error "解析WebSocket URL失败", 0)
  else if !net.connectOk then
    (Except.error "连接WebSocket失败", 1)
  else if !net.sendOk then
    (Except.error "发送WebSocket消息失败", 1)
  else
    match net.event with
    | WsEvent.frameErr e => (Except.error ("WebSocket响应错误: " ++ e), 1)
    | WsEvent.closed => (Except.error "WebSocket连接已关闭", 1)
    | WsEvent.timeout => (Except.error "WebSocket请求超时(15秒)", 1)
    | WsEvent.frameOther => (Except.error "收到非文本WebSocket响应", 1)
    | WsEvent.frameText parsed =>
      let latency := net.dConnect + net.dSend + net.dEvent
      match parsed with
      | none => (Except.error "解析WebSocket响应JSON失败", 1)
      | some response_body =>
        let success := (response_body.get "error").isNone
        let error :=
          if !success then
            ((response_body.get "error").bind (fun e => e.get "message")).bind Json.asStr
          else
            none
        (Except.ok (success, latency, error, response_body), 1)

/-- Per-attempt environment handed to the Dispatcher: the network oracles
for both transports and the current clock value (`Utc::now()`). -/
structure AttemptEnv where
  http : HttpNet
  ws : WsNet
  now : ℕ

/-- Embedding of `test_method` (src/rpc.rs lines 205-242): dispatch over
the chain's connection type and wrap the transport tuple into an
`RpcResult`, propagating transport errors with `?`. -/
def test_method (chain : Chain) (method : RpcMethod) (env : AttemptEnv) :
    Except String RpcResult :=
  let dispatched :=
    match chain.connection_type with
    | ConnectionType.Http => send_http_rpc_request env.http method.name method.params
    | ConnectionType.WebSocket => (send_ws_rpc_request env.ws method.name method.params).1
  dispatched.map (fun r =>
    { chain := chain.name, endpoint := chain.rpc_url, method := method.name,
      success := r.1, latency_ms := r.2.1, error := r.2.2.1, timestamp := env.now })

/-- Failed `RpcResult` pushed by `test_all_methods` when `test_method`
returns an error (src/rpc.rs lines 279-288): success false, latency 0.0,
and the error text wrapped in the fixed message. -/
def failedResult (chain : Chain) (method : RpcMethod) (e : String) (now : ℕ) : RpcResult :=
  { chain := chain.name, endpoint := chain.rpc_url, method := method.name,
    success := false, latency_ms := 0, error := some ("测试失败: " ++ e),
    timestamp := now }

/-- The one `RpcResult` recorded for a single executed attempt: the
dispatched result on success, `failedResult` on a dispatcher error
(the two arms of the `match` in src/rpc.rs lines 269-297). -/
def recordAttempt (chain : Chain) (method : RpcMethod) (env : AttemptEnv) : RpcResult :=
  match test_method chain method env with
  | Except.ok r => r
  | Except.error e => failedResult chain method e env.now

/-- Embedding of the attempt loop `for attempt in 0..count_per_method`
(src/rpc.rs lines 268-301), with each recorded result tagged by its
attempt index.  `remaining` counts the iterations left and `attempt` is
the loop variable.  On a dispatcher error at `attempt == 0` against a
WebSocket chain the loop `break`s after pushing the failed result. -/
def runAttempts (chain : Chain) (method : RpcMethod) (env : ℕ → AttemptEnv) :
    ℕ → ℕ → List (ℕ × RpcResult)
  | 0, _ => []
  | remaining + 1, attempt =>
    match test_method chain method (env attempt) with
    | Except.ok r => (attempt, r) :: runAttempts chain method env remaining (attempt + 1)
    | Except.error e =>
      if attempt = 0 ∧ chain.connection_type = ConnectionType.WebSocket then
        [(attempt, failedResult chain method e (env attempt).now)]
      else
        (attempt, failedResult chain method e (env attempt).now) ::
          runAttempts chain method env remaining (attempt + 1)

/-- Embedding of the method loop `for (i, method) in methods.iter().enumerate()`
(src/rpc.rs lines 261-325), with results tagged by (method index, attempt
index).  After a method's attempts finish, if it was the first method
(`i == 0`), had zero successes, and the chain is WebSocket, the remaining
methods of this chain are skipped. -/
def runMethods (chain : Chain) (env : ℕ → ℕ → AttemptEnv) (count : ℕ) :
    List RpcMethod → ℕ → List (ℕ × ℕ × RpcResult)
  | [], _ => []
  | method :: rest, i =>
    let method_results := runAttempts chain method (env i) count 0
    let success_count := (method_results.filter (fun p => p.2.success)).length
    method_results.map (fun p => (i, p.1, p.2)) ++
      (if i = 0 ∧ success_count = 0 ∧ chain.connection_type = ConnectionType.WebSocket then
        []
      else
        runMethods chain env count rest (i + 1))

/-- Embedding of the chain loop of `test_all_methods` (src/rpc.rs lines
255-326), producing the full execution trace: one entry
(chain index, method index, attempt index, recorded result) per executed
attempt, in issuance order. -/
def runChains (methods : List RpcMethod) (count : ℕ) (env : ℕ → ℕ → ℕ → AttemptEnv) :
    List Chain → ℕ → List (ℕ × ℕ × ℕ × RpcResult)
  | [], _ => []
  | chain :: rest, c =>
    (runMethods chain (env c) count methods 0).map (fun p => (c, p.1, p.2.1, p.2.2)) ++
      runChains methods count env rest (c + 1)

/-- Embedding of `test_all_methods` (src/rpc.rs lines 245-329): the flat
list of recorded results, in issuance order.  The Rust function returns
`Result<Vec<RpcResult>>` but every dispatcher error is caught inside the
attempt loop, so it always returns `Ok`. -/
def test_all_methods (chains : List Chain) (methods : List RpcMethod) (count : ℕ)
    (env : ℕ → ℕ → ℕ → AttemptEnv) : Except String (List RpcResult) :=
  Except.ok ((runChains methods count env chains 0).map (fun p => p.2.2.2))

/-- Aggregated statistics for one (chain, endpoint, method) group, from
src/stats.rs (`MethodStats`). -/
structure MethodStats where
  chain : String
  endpoint : String
  method : String
  call_count : ℕ
  success_count : ℕ
  min_latency : ℚ
  max_latency : ℚ
  avg_latency : ℚ
  median_latency : ℚ
  p95_latency : ℚ
  success_rate : ℚ
deriving DecidableEq, Repr

/-- Minimum of a latency list: the iterator `min_by(partial_cmp)` with
`unwrap_or(0.0)` of src/stats.rs line 80 (0 only on the empty list). -/
def listMin : List ℚ → ℚ
  | [] => 0
  | x :: xs => xs.foldl min x

/-- Maximum of a latency list: the iterator `max_by(partial_cmp)` with
`unwrap_or(0.0)` of src/stats.rs line 81. -/
def listMax : List ℚ → ℚ
  | [] => 0
  | x :: xs => xs.foldl max x

/-- Arithmetic mean, src/stats.rs line 82. -/
def listAvg (l : List ℚ) : ℚ := l.sum / (l.length : ℚ)

/-- Median of an already-sorted latency list, exactly as src/stats.rs
lines 88-95: 0 when empty, mean of the two middle elements when the
length is even, the middle element when odd. -/
def medianCode (sorted : List ℚ) : ℚ :=
  if sorted.isEmpty then 0
  else if sorted.length % 2 = 0 then
    let mid := sorted.length / 2
    (sorted.getD (mid - 1) 0 + sorted.getD mid 0) / 2
  else
    sorted.getD (sorted.length / 2) 0

/-- P95 of an already-sorted latency list, exactly as src/stats.rs lines
97-106: index `(len as f64 * 0.95) as usize`; when the list is empty or
the index is out of range, fall back to the last element (0 if none). -/
def p95Code (sorted : List ℚ) : ℚ :=
  let p95_index := Nat.floor ((sorted.length : ℚ) * (95 / 100))
  if sorted.isEmpty ∨ sorted.length ≤ p95_index then
    sorted.getLastD 0
  else
    sorted.getD p95_index 0

/-- Grouping key of a result: the triple (chain, endpoint, method) of
src/stats.rs line 43. -/
def resultKey (r : RpcResult) : String × String × String :=
  (r.chain, r.endpoint, r.method)

/-- Per-group statistics computation: body of the `map` closure in
src/stats.rs lines 50-121.  When the group has no successful result all
latency fields are 0 and only the rate is computed; otherwise the latency
fields are computed from the successful results' latencies, median and
p95 over an ascending-sorted copy. -/
def mkStats (key : String × String × String) (group : List RpcResult) : MethodStats :=
  let call_count := group.length
  let success_results := group.filter (fun r => r.success)
  let success_count := success_results.length
  let success_rate := (success_count : ℚ) / (call_count : ℚ)
  if success_count = 0 then
    { chain := key.1, endpoint := key.2.1, method := key.2.2,
      call_count := call_count, success_count := success_count,
      min_latency := 0, max_latency := 0, avg_latency := 0,
      median_latency := 0, p95_latency := 0, success_rate := success_rate }
  else
    let latencies := success_results.map (fun r => r.latency_ms)
    let sorted_latencies := List.insertionSort (fun a b => a ≤ b) latencies
    { chain := key.1, endpoint := key.2.1, method := key.2.2,
      call_count := call_count, success_count := success_count,
      min_latency := listMin latencies, max_latency := listMax latencies,
      avg_latency := listAvg latencies,
      median_latency := medianCode sorted_latencies,
      p95_latency := p95Code sorted_latencies,
      success_rate := success_rate }

/-- Ranking order of src/stats.rs lines 122-129: chain name ascending,
then success rate descending, then average latency ascending. -/
def statLe (a b : MethodStats) : Prop :=
  a.chain < b.chain ∨
    (a.chain = b.chain ∧
      (b.success_rate < a.success_rate ∨
        (a.success_rate = b.success_rate ∧ a.avg_latency ≤ b.avg_latency)))

instance statLe.decidableRel : DecidableRel statLe := fun a b => by
  unfold statLe
  exact inferInstance

instance statLe.isTotal : IsTotal MethodStats statLe := by
  constructor
  intro a b
  rcases lt_trichotomy a.chain b.chain with h | h | h
  · exact Or.inl (Or.inl h)
  · rcases lt_trichotomy a.success_rate b.success_rate with hr | hr | hr
    · exact Or.inr (Or.inr ⟨h.symm, Or.inl hr⟩)
    · rcases le_total a.avg_latency b.avg_latency with ha | ha
      · exact Or.inl (Or.inr ⟨h, Or.inr ⟨hr, ha⟩⟩)
      · exact Or.inr (Or.inr ⟨h.symm, Or.inr ⟨hr.symm, ha⟩⟩)
    · exact Or.inl (Or.inr ⟨h, Or.inl hr⟩)
  · exact Or.inr (Or.inl h)

instance statLe.isTrans : IsTrans MethodStats statLe := by
  constructor
  intro a b c hab hbc
  rcases hab with hab | ⟨hab, hab2⟩
  · rcases hbc with hbc | ⟨hbc, _⟩
    · exact Or.inl (hab.trans hbc)
    · exact Or.inl (hbc ▸ hab)
  · rcases hbc with hbc | ⟨hbc, hbc2⟩
    · exact Or.inl (hab ▸ hbc)
    · refine Or.inr ⟨hab.trans hbc, ?_⟩
      rcases hab2 with hr | ⟨hr, hl⟩
      · rcases hbc2 with hr2 | ⟨hr2, _⟩
        · exact Or.inl (hr2.trans hr)
        · exact Or.inl (hr2 ▸ hr)
      · rcases hbc2 with hr2 | ⟨hr2, hl2⟩
        · exact Or.inl (hr ▸ hr2)
        · exact Or.inr ⟨hr.trans hr2, hl.trans hl2⟩

/-- Embedding of `calculate_stats` (src/stats.rs lines 38-131): group the
results by (chain, endpoint, method) — each group holds, in order, exactly
the results with that key — compute per-group statistics, and sort by
`statLe`.  The `HashMap` iteration order of the Rust code is unspecified;
the sort's tie order is therefore unspecified as well and this embedding
fixes one admissible order. -/
def calculate_stats (results : List RpcResult) : List MethodStats :=
  let keys := (results.map resultKey).dedup
  List.insertionSort statLe
    (keys.map (fun k => mkStats k (results.filter (fun r => resultKey r = k))))

/-!
Claim-side definitions: these follow the spec's words, to be compared with
the embedding of the source.
-/

/-- Stated latency of the HTTP path per the spec: "measure elapsed time
from just before send to fully-received body" — the send duration plus the
body read/parse duration. -/
def claimHttpLatency (net : HttpNet) : ℚ := net.dSend + net.dBody

/-- Stated latency of the duplex path per the spec: "latency is measured
from the send of the request frame to the winning event", excluding
connection establishment — the send duration plus the wait for the
winning event, without `dConnect`. -/
def claimWsLatency (net : WsNet) : ℚ := net.dSend + net.dEvent

/-- Stated median per the spec: over the ascending-sorted latencies, the
average of the two middle values when the count is even and the single
middle value when odd. -/
def claimMedian (sorted : List ℚ) : ℚ :=
  if sorted.length % 2 = 0 then
    (sorted.getD (sorted.length / 2 - 1) 0 + sorted.getD (sorted.length / 2) 0) / 2
  else
    sorted.getD (sorted.length / 2) 0

/-- Stated p95 per the spec: the element of the ascending-sorted latencies
at index `floor(count * 0.95)`, clamped to the last index when that index
would overflow. -/
def claimP95 (sorted : List ℚ) : ℚ :=
  sorted.getD (min (Nat.floor ((sorted.length : ℚ) * (95 / 100))) (sorted.length - 1)) 0

/-- Latency projection of a dispatcher result (0 on a raised error, where
no latency is reported at all). -/
def dispatchLatency : Except String (Bool × ℚ × Option String × Json) → ℚ
  | Except.ok r => r.2.1
  | Except.error _ => 0

/-- Successful latencies of a group of results. -/
def successLatencies (g : List RpcResult) : List ℚ :=
  (g.filter (fun r => r.success)).map (fun r => r.latency_ms)

/-- Group of a statistic inside the original result list: all results
carrying the statistic's (chain, endpoint, method) key, in order. -/
def groupOf (results : List RpcResult) (stat : MethodStats) : List RpcResult :=
  results.filter (fun r => resultKey r = (stat.chain, stat.endpoint, stat.method))

/-!
Helper lemmas about the orchestrator's execution trace.
-/

theorem runAttempts_sound (chain : Chain) (method : RpcMethod) (env : ℕ → AttemptEnv) :
    ∀ remaining attempt p, p ∈ runAttempts chain method env remaining attempt →
      p.2 = recordAttempt chain method (env p.1) := by
  intro remaining
  induction remaining with
  | zero => intro attempt p h; simp [runAttempts] at h
  | succ n ih =>
    intro attempt p h
    rw [runAttempts] at h
    split at h
    next r heq =>
      rcases List.mem_cons.mp h with rfl | h2
      · simp [recordAttempt, heq]
      · exact ih _ _ h2
    next e heq =>
      split at h
      · rcases List.mem_singleton.mp h with rfl
        simp [recordAttempt, heq]
      · rcases List.mem_cons.mp h with rfl | h2
        · simp [recordAttempt, heq]
        · exact ih _ _ h2

theorem runMethods_sound (chain : Chain) (env : ℕ → ℕ → AttemptEnv) (count : ℕ) :
    ∀ methods i p, p ∈ runMethods chain env count methods i →
      i ≤ p.1 ∧ ∃ method, methods.get? (p.1 - i) = some method ∧
        p.2.2 = recordAttempt chain method (env p.1 p.2.1) := by
  intro methods
  induction methods with
  | nil => intro i p h; simp [runMethods] at h
  | cons method rest ih =>
    intro i p h
    rw [runMethods] at h
    rcases List.mem_append.mp h with h1 | h2
    · rcases List.mem_map.mp h1 with ⟨q, hq, rfl⟩
      refine ⟨le_refl i, method, ?_, ?_⟩
      · simp
      · simpa using runAttempts_sound chain method (env i) count 0 q hq
    · split at h2
      · simp at h2
      · obtain ⟨hle, method2, hget, heq⟩ := ih (i + 1) p h2
        refine ⟨by omega, method2, ?_, heq⟩
        have hidx : p.1 - i = (p.1 - (i + 1)) + 1 := by omega
        rw [hidx, List.get?_cons_succ]
        exact hget

theorem runChains_sound (methods : List RpcMethod) (count : ℕ)
    (env : ℕ → ℕ → ℕ → AttemptEnv) :
    ∀ chains c p, p ∈ runChains methods count env chains c →
      c ≤ p.1 ∧ ∃ chain, chains.get? (p.1 - c) = some chain ∧
        ∃ method, methods.get? p.2.1 = some method ∧
          p.2.2.2 = recordAttempt chain method (env p.1 p.2.1 p.2.2.1) := by
  intro chains
  induction chains with
  | nil => intro c p h; simp [runChains] at h
  | cons chain rest ih =>
    intro c p h
    rw [runChains] at h
    rcases List.mem_append.mp h with h1 | h2
    · rcases List.mem_map.mp h1 with ⟨q, hq, rfl⟩
      obtain ⟨_, method, hget, heq⟩ := runMethods_sound chain (env c) count methods 0 q hq
      refine ⟨le_refl c, chain, by simp, method, ?_, ?_⟩
      · simpa using hget
      · simpa using heq
    · obtain ⟨hle, chain2, hget, rest2⟩ := ih (c + 1) p h2
      refine ⟨by omega, chain2, ?_, rest2⟩
      have hidx : p.1 - c = (p.1 - (c + 1)) + 1 := by omega
      rw [hidx, List.get?_cons_succ]
      exact hget

/-!
Helper lemmas about the statistics aggregator.
-/

theorem mkStats_chain (k : String × String × String) (g : List RpcResult) :
    (mkStats k g).chain = k.1 := by
  unfold mkStats
  simp only []
  split <;> rfl

theorem mkStats_endpoint (k : String × String × String) (g : List RpcResult) :
    (mkStats k g).endpoint = k.2.1 := by
  unfold mkStats
  simp only []
  split <;> rfl

theorem mkStats_method (k : String × String × String) (g : List RpcResult) :
    (mkStats k g).method = k.2.2 := by
  unfold mkStats
  simp only []
  split <;> rfl

theorem mkStats_call_count (k : String × String × String) (g : List RpcResult) :
    (mkStats k g).call_count = g.length := by
  unfold mkStats
  simp only []
  split <;> rfl

theorem mkStats_success_count (k : String × String × String) (g : List RpcResult) :
    (mkStats k g).success_count = (g.filter (fun r => r.success)).length := by
  unfold mkStats
  simp only []
  split <;> rfl

theorem mkStats_success_rate (k : String × String × String) (g : List RpcResult) :
    (mkStats k g).success_rate =
      ((g.filter (fun r => r.success)).length : ℚ) / (g.length : ℚ) := by
  unfold mkStats
  simp only []
  split <;> rfl

theorem mkStats_min (k : String × String × String) (g : List RpcResult) :
    (mkStats k g).min_latency = listMin (successLatencies g) := by
  unfold mkStats
  simp only []
  split
  · next h => simp [successLatencies, List.length_eq_zero.mp h, listMin]
  · rfl

theorem mkStats_max (k : String × String × String) (g : List RpcResult) :
    (mkStats k g).max_latency = listMax (successLatencies g) := by
  unfold mkStats
  simp only []
  split
  · next h => simp [successLatencies, List.length_eq_zero.mp h, listMax]
  · rfl

theorem mkStats_avg (k : String × String × String) (g : List RpcResult) :
    (mkStats k g).avg_latency = listAvg (successLatencies g) := by
  unfold mkStats
  simp only []
  split
  · next h => simp [successLatencies, List.length_eq_zero.mp h, listAvg]
  · rfl

theorem mkStats_median (k : String × String × String) (g : List RpcResult) :
    (mkStats k g).median_latency =
      medianCode (List.insertionSort (fun a b => a ≤ b) (successLatencies g)) := by
  unfold mkStats
  simp only []
  split
  · next h =>
    simp [successLatencies, List.length_eq_zero.mp h, List.insertionSort, medianCode]
  · rfl

theorem mkStats_p95 (k : String × String × String) (g : List RpcResult) :
    (mkStats k g).p95_latency =
      p95Code (List.insertionSort (fun a b => a ≤ b) (successLatencies g)) := by
  unfold mkStats
  simp only []
  split
  · next h =>
    simp [successLatencies, List.length_eq_zero.mp h, List.insertionSort, p95Code]
  · rfl

theorem medianCode_eq_claimMedian (l : List ℚ) : medianCode l = claimMedian l := by
  cases l with
  | nil => simp [medianCode, claimMedian]
  | cons x xs => simp [medianCode, claimMedian]

theorem getLastD_eq_getD_length (l : List ℚ) :
    ∀ x d, (x :: l).getLastD d = (x :: l).getD l.length 0 := by
  induction l with
  | nil => intro x d; rfl
  | cons y ys ih =>
    intro x d
    rw [List.getLastD_cons]
    have h2 : (x :: y :: ys).getD (y :: ys).length 0 = (y :: ys).getD ys.length 0 := by
      simp [List.getD_cons_succ]
    rw [h2]
    exact ih y x

theorem p95Code_eq_claimP95 (l : List ℚ) (h : l ≠ []) : p95Code l = claimP95 l := by
  unfold p95Code claimP95
  simp only []
  by_cases hc : l.length ≤ Nat.floor ((l.length : ℚ) * (95 / 100))
  · rw [if_pos (Or.inr hc)]
    cases l with
    | nil => exact absurd rfl h
    | cons x xs =>
      rw [getLastD_eq_getD_length xs x 0]
      have hmin : min (Nat.floor (((x :: xs).length : ℚ) * (95 / 100))) ((x :: xs).length - 1) =
          (x :: xs).length - 1 := by
        exact Nat.min_eq_right (by omega)
      rw [hmin]
      have hlen : (x :: xs).length - 1 = xs.length := by simp
      rw [hlen]
  · have hne : ¬(l.isEmpty = true ∨ l.length ≤ Nat.floor ((l.length : ℚ) * (95 / 100))) := by
      intro hor
      rcases hor with he | hle
      · exact h (List.isEmpty_iff.mp he)
      · exact hc hle
    rw [if_neg hne]
    have hmin : min (Nat.floor ((l.length : ℚ) * (95 / 100))) (l.length - 1) =
        Nat.floor ((l.length : ℚ) * (95 / 100)) := by
      exact Nat.min_eq_left (by omega)
    rw [hmin]

theorem mem_calculate_stats (results : List RpcResult) (stat : MethodStats) :
    stat ∈ calculate_stats results →
    ∃ k, k ∈ (results.map resultKey).dedup ∧
      stat = mkStats k (results.filter (fun r => resultKey r = k)) := by
  intro h
  unfold calculate_stats at h
  simp only [] at h
  rw [List.mem_insertionSort] at h
  rcases List.mem_map.mp h with ⟨k, hk, rfl⟩
  exact ⟨k, hk, rfl⟩

theorem groupOf_mkStats (results : List RpcResult) (k : String × String × String)
    (g : List RpcResult) :
    groupOf results (mkStats k g) = results.filter (fun r => resultKey r = k) := by
  obtain ⟨k1, k2, k3⟩ := k
  unfold groupOf
  simp only [mkStats_chain, mkStats_endpoint, mkStats_method]

theorem group_nonempty (results : List RpcResult) (k : String × String × String)
    (hk : k ∈ (results.map resultKey).dedup) :
    results.filter (fun r => resultKey r = k) ≠ [] := by
  rcases List.mem_map.mp (List.mem_dedup.mp hk) with ⟨r, hr, rfl⟩
  intro hempty
  have hrf : r ∈ results.filter (fun x => resultKey x = resultKey r) :=
    List.mem_filter.mpr ⟨hr, by simp⟩
  rw [hempty] at hrf
  exact List.not_mem_nil r hrf

/-!
Concrete fixtures used by counterexamples and witnesses.
-/

/-- A well-formed JSON-RPC success body (no top-level error field). -/
def httpBody : Json :=
  Json.obj [("jsonrpc", Json.str "2.0"), ("id", Json.num 1), ("result", Json.str "0x10")]

/-- HTTP oracle for a fully successful request: send takes 3 ms, reading
and parsing the body takes 5 more ms. -/
def httpOkNet : HttpNet :=
  { sendOk := true, dSend := 3, bodyJson := some httpBody, dBody := 5 }

/-- HTTP oracle whose send fails. -/
def httpBadNet : HttpNet :=
  { sendOk := false, dSend := 0, bodyJson := none, dBody := 0 }

/-- A well-formed JSON-RPC success body received over the duplex socket. -/
def wsBody : Json :=
  Json.obj [("jsonrpc", Json.str "2.0"), ("id", Json.num 1), ("result", Json.str "0x10")]

/-- WebSocket oracle for a fully successful request: connection
establishment takes 7 ms, the send 1 ms, the response frame arrives
after 2 more ms. -/
def wsOkNet : WsNet :=
  { urlOk := true, connectOk := true, dConnect := 7, sendOk := true, dSend := 1,
    event := WsEvent.frameText (some wsBody), dEvent := 2, closeSendOk := true }

/-- WebSocket oracle whose connection establishment fails. -/
def wsBadNet : WsNet :=
  { urlOk := true, connectOk := false, dConnect := 0, sendOk := true, dSend := 0,
    event := WsEvent.timeout, dEvent := 0, closeSendOk := true }

/-- A WebSocket chain fixture (as `Chain::new` builds for a wss URL). -/
def chainW : Chain :=
  { name := "ETH-WS", rpc_url := "wss://node.example",
    connection_type := ConnectionType.WebSocket }

/-- An HTTP chain fixture (as `Chain::new` builds for an https URL). -/
def chainH : Chain :=
  { name := "ETH-HTTP", rpc_url := "https://node.example",
    connection_type := ConnectionType.Http }

/-- First catalog method fixture. -/
def m0 : RpcMethod :=
  { name := "eth_blockNumber", params := [], description := "latest block height" }

/-- Second catalog method fixture. -/
def m1 : RpcMethod :=
  { name := "eth_chainId", params := [], description := "chain id" }

/-- Attempt environment in which both transports succeed. -/
def envOkW : AttemptEnv := { http := httpOkNet, ws := wsOkNet, now := 0 }

/-- Attempt environment in which the duplex connection cannot be established. -/
def envBadW : AttemptEnv := { http := httpOkNet, ws := wsBadNet, now := 0 }

/-- Attempt environment in which the HTTP send fails. -/
def envBadH : AttemptEnv := { http := httpBadNet, ws := wsOkNet, now := 5 }

/-!
C1.  Spec: at most one live duplex connection per endpoint address,
created lazily and reused; two dispatched requests to the same duplex
address cause exactly one connection establishment.

The code has no connection registry: `send_ws_rpc_request` dials
`connect_async` on every invocation (src/rpc.rs line 91) and closes the
connection before returning (line 196-199), so two dispatched requests to
the same address establish two connections.
-/

/-- C1 counterexample: two dispatched requests to the same duplex address
(the same endpoint oracle `wsOkNet`, both fully successful) perform two
connection establishments, not one as claimed. -/
theorem c1_counterexample :
    (send_ws_rpc_request wsOkNet "eth_blockNumber" []).2 +
      (send_ws_rpc_request wsOkNet "eth_blockNumber" []).2 = 2 ∧
    ¬((send_ws_rpc_request wsOkNet "eth_blockNumber" []).2 +
      (send_ws_rpc_request wsOkNet "eth_blockNumber" []).2 = 1) := by
  decide

/-- C1 amended: no duplex connection is ever reused — every dispatched
duplex request whose URL parses performs exactly one connection
establishment of its own, so n requests to the same address cause n
establishments. -/
theorem c1_amended_connect_per_request (net : WsNet) (method : String) (params : List Json)
    (h : net.urlOk = true) : (send_ws_rpc_request net method params).2 = 1 := by
  obtain ⟨u, co, dc, so, ds, ev, de, cs⟩ := net
  cases u
  · simp at h
  · cases co <;> cases so <;> cases ev <;> try rfl
    all_goals (rename_i parsed; cases parsed <;> rfl)

/-- C1 amended witness: the amended statement at the concrete successful
endpoint oracle. -/
theorem c1_amended_witness :
    wsOkNet.urlOk = true ∧ (send_ws_rpc_request wsOkNet "eth_blockNumber" []).2 = 1 :=
  ⟨rfl, c1_amended_connect_per_request wsOkNet "eth_blockNumber" [] rfl⟩

/-!
C3.  Spec: HTTP latency is measured from just before the send to the
fully-received response body; duplex latency is measured from the send of
the request frame to the winning event, excluding connection
establishment.

The code measures HTTP latency at src/rpc.rs line 56, after `send()`
returns but before `response.json().await` reads the body; and it starts
the duplex timer at line 83, before URL parsing and `connect_async`, so
the duplex latency includes connection establishment.
-/

/-- C3 counterexample: with a successful HTTP exchange whose send takes
3 ms and whose body read takes 5 more ms the code reports 3, not the
claimed 8; with a successful duplex exchange (connect 7 ms, send 1 ms,
response after 2 ms) the code reports 10, not the claimed 3. -/
theorem c3_counterexample :
    dispatchLatency (send_http_rpc_request httpOkNet "eth_blockNumber" []) = 3 ∧
    claimHttpLatency httpOkNet = 8 ∧
    dispatchLatency (send_ws_rpc_request wsOkNet "eth_blockNumber" []).1 = 10 ∧
    claimWsLatency wsOkNet = 3 ∧
    (3 : ℚ) ≠ 8 ∧ (10 : ℚ) ≠ 3 := by
  refine ⟨rfl, ?_, ?_, ?_, by norm_num, by norm_num⟩
  · show (3 : ℚ) + 5 = 8
    norm_num
  · show (7 : ℚ) + 1 + 2 = 10
    norm_num
  · show (1 : ℚ) + 2 = 3
    norm_num

/-- C3 amended: the HTTP latency covers exactly the send step (request
transmitted, response returned), excluding the body read/parse; the
duplex latency covers connection establishment, the frame send and the
wait for the winning event. -/
theorem c3_amended_latency (hnet : HttpNet) (method : String) (params : List Json)
    (body : Json) (wnet : WsNet) (parsed : Json) :
    (hnet.sendOk = true → hnet.bodyJson = some body →
      dispatchLatency (send_http_rpc_request hnet method params) = hnet.dSend) ∧
    (wnet.urlOk = true → wnet.connectOk = true → wnet.sendOk = true →
      wnet.event = WsEvent.frameText (some parsed) →
      dispatchLatency (send_ws_rpc_request wnet method params).1 =
        wnet.dConnect + wnet.dSend + wnet.dEvent) := by
  constructor
  · intro hs hb
    simp [send_http_rpc_request, dispatchLatency, hs, hb]
  · intro hu hc hs he
    simp [send_ws_rpc_request, dispatchLatency, hu, hc, hs, he]

/-- C3 amended witness: the amended statement at the concrete oracles. -/
theorem c3_amended_witness :
    httpOkNet.sendOk = true ∧ httpOkNet.bodyJson = some httpBody ∧
    wsOkNet.urlOk = true ∧ wsOkNet.connectOk = true ∧ wsOkNet.sendOk = true ∧
    wsOkNet.event = WsEvent.frameText (some wsBody) ∧
    dispatchLatency (send_http_rpc_request httpOkNet "eth_blockNumber" []) = httpOkNet.dSend ∧
    dispatchLatency (send_ws_rpc_request wsOkNet "eth_blockNumber" []).1 =
      wsOkNet.dConnect + wsOkNet.dSend + wsOkNet.dEvent :=
  ⟨rfl, rfl, rfl, rfl, rfl, rfl,
    (c3_amended_latency httpOkNet "eth_blockNumber" [] httpBody wsOkNet wsBody).1 rfl rfl,
    (c3_amended_latency httpOkNet "eth_blockNumber" [] httpBody wsOkNet wsBody).2
      rfl rfl rfl rfl⟩

/-!
C10.  Once a text frame has been received and parsed, the duplex attempt's
outcome is final: a failure to send the close frame is swallowed
(src/rpc.rs lines 196-199 only log it) and the computed outcome is
returned.
-/

/-- C10: on the duplex path, after a text frame is received and parsed,
the function returns the computed (success, latency, errorMessage, body)
outcome whatever the close-frame send result is. -/
theorem c10_close_frame_failure_swallowed (net : WsNet) (method : String)
    (params : List Json) (body : Json) (hu : net.urlOk = true) (hc : net.connectOk = true)
    (hs : net.sendOk = true) (he : net.event = WsEvent.frameText (some body)) :
    ∀ b : Bool, (send_ws_rpc_request { net with closeSendOk := b } method params).1 =
      Except.ok ((body.get "error").isNone,
        net.dConnect + net.dSend + net.dEvent,
        (if !(body.get "error").isNone then
          ((body.get "error").bind (fun e => e.get "message")).bind Json.asStr
        else none),
        body) := by
  intro b
  simp [send_ws_rpc_request, hu, hc, hs, he]

/-- C10 witness: the concrete successful exchange still returns its
outcome when the close-frame send fails. -/
theorem c10_witness :
    wsOkNet.urlOk = true ∧ wsOkNet.connectOk = true ∧ wsOkNet.sendOk = true ∧
    wsOkNet.event = WsEvent.frameText (some wsBody) ∧
    (send_ws_rpc_request { wsOkNet with closeSendOk := false } "eth_blockNumber" []).1 =
      Except.ok ((wsBody.get "error").isNone,
        wsOkNet.dConnect + wsOkNet.dSend + wsOkNet.dEvent,
        (if !(wsBody.get "error").isNone then
          ((wsBody.get "error").bind (fun e => e.get "message")).bind Json.asStr
        else none),
        wsBody) :=
  ⟨rfl, rfl, rfl, rfl,
    c10_close_frame_failure_swallowed wsOkNet "eth_blockNumber" [] wsBody rfl rfl rfl rfl false⟩

/-!
Orchestrator claims (C2, C4, C8, C9).
-/

/-- Attempt environments for the C2 counterexample: the first method's
attempts all succeed, every later method's attempts hit a connection
failure. -/
def envC2 : ℕ → ℕ → AttemptEnv := fun i _ => if i = 0 then envOkW else envBadW

/-- Attempt environments where every duplex attempt hits a connection
failure. -/
def envB2 : ℕ → AttemptEnv := fun _ => envBadW

/-- Chain-level attempt environments where every duplex attempt hits a
connection failure. -/
def envC4 : ℕ → ℕ → ℕ → AttemptEnv := fun _ _ _ => envBadW

/-- Chain-level attempt environments where every HTTP send fails. -/
def envC9 : ℕ → ℕ → ℕ → AttemptEnv := fun _ _ _ => envBadH

/-- Shared helper: on a WebSocket chain, a dispatcher error on a method's
first attempt stops the attempt loop after recording the single failed
outcome (src/rpc.rs lines 291-295), whatever the configured count. -/
theorem runAttempts_first_error (chain : Chain) (method : RpcMethod) (env : ℕ → AttemptEnv)
    (count : ℕ) (e : String) (hws : chain.connection_type = ConnectionType.WebSocket)
    (herr : test_method chain method (env 0) = Except.error e) (hcount : 1 ≤ count) :
    runAttempts chain method env count 0 = [(0, failedResult chain method e (env 0).now)] := by
  obtain ⟨k, rfl⟩ : ∃ k, count = k + 1 := ⟨count - 1, by omega⟩
  simp [runAttempts, herr, hws]

/-- Shared helper: on a WebSocket chain whose first method ends with zero
successes, the method loop stops after the first method (src/rpc.rs lines
320-324) and the chain loop proceeds with the remaining chains. -/
theorem runChains_first_method_zero_success (chain : Chain) (restChains : List Chain)
    (env : ℕ → ℕ → ℕ → AttemptEnv) (count : ℕ) (m : RpcMethod) (rest : List RpcMethod)
    (hws : chain.connection_type = ConnectionType.WebSocket)
    (hzero : ((runAttempts chain m (env 0 0) count 0).filter (fun p => p.2.success)).length = 0) :
    runChains (m :: rest) count env (chain :: restChains) 0 =
      (runAttempts chain m (env 0 0) count 0).map (fun p => (0, 0, p.1, p.2)) ++
        runChains (m :: rest) count env restChains 1 := by
  rw [runChains, runMethods]
  simp [hws, hzero, List.map_map, Function.comp]

/-- C2 counterexample: against the duplex chain `chainW` with 3 configured
repetitions, the second method's first attempt raises a dispatcher error
and the code stops repeating that method early: the recorded outcomes
contain exactly one entry for method index 1, not the 3 the claim
requires for a method after the first. -/
theorem c2_counterexample :
    chainW.connection_type = ConnectionType.WebSocket ∧
    (∃ e, test_method chainW m1 (envC2 1 0) = Except.error e) ∧
    ((runMethods chainW envC2 3 [m0, m1] 0).filter (fun p => p.1 = 1)).length = 1 ∧
    ¬(((runMethods chainW envC2 3 [m0, m1] 0).filter (fun p => p.1 = 1)).length = 3) := by
  refine ⟨rfl, ⟨"连接WebSocket失败", rfl⟩, ?_, ?_⟩
  · decide
  · decide

/-- C2 amended: the stop-repeating-early special case applies to the first
attempt of EVERY method tested against a duplex-socket endpoint, not only
the first method: whenever a method's first attempt raises a dispatcher
error, its failing outcome is appended and the method's remaining
attempts are skipped. -/
theorem c2_amended_every_method_stops_early (chain : Chain) (method : RpcMethod)
    (env : ℕ → AttemptEnv) (count : ℕ) (e : String)
    (hws : chain.connection_type = ConnectionType.WebSocket)
    (herr : test_method chain method (env 0) = Except.error e) (hcount : 1 ≤ count) :
    runAttempts chain method env count 0 = [(0, failedResult chain method e (env 0).now)] :=
  runAttempts_first_error chain method env count e hws herr hcount

/-- C2 amended witness: the amended statement at the concrete failing
endpoint, for the second catalog method. -/
theorem c2_amended_witness :
    chainW.connection_type = ConnectionType.WebSocket ∧
    test_method chainW m1 (envB2 0) = Except.error "连接WebSocket失败" ∧
    (1 : ℕ) ≤ 3 ∧
    runAttempts chainW m1 envB2 3 0 =
      [(0, failedResult chainW m1 "连接WebSocket失败" (envB2 0).now)] :=
  ⟨rfl, rfl, by norm_num,
    c2_amended_every_method_stops_early chainW m1 envB2 3 "连接WebSocket失败" rfl rfl
      (by norm_num)⟩

/-- C4: on a duplex chain whose first method finishes with zero successes,
the orchestrator skips all remaining methods of that chain and proceeds to
the next chain; in particular, when the first method's first attempt
raises a dispatcher error, the chain contributes exactly one recorded
outcome (for method 0) and none for any later method. -/
theorem c4_endpoint_abort (chain : Chain) (restChains : List Chain)
    (env : ℕ → ℕ → ℕ → AttemptEnv) (count : ℕ) (m : RpcMethod) (rest : List RpcMethod)
    (hws : chain.connection_type = ConnectionType.WebSocket) :
    ((((runAttempts chain m (env 0 0) count 0).filter (fun p => p.2.success)).length = 0 →
      runChains (m :: rest) count env (chain :: restChains) 0 =
        (runAttempts chain m (env 0 0) count 0).map (fun p => (0, 0, p.1, p.2)) ++
          runChains (m :: rest) count env restChains 1) ∧
    (∀ e, test_method chain m (env 0 0 0) = Except.error e → 1 ≤ count →
      runChains (m :: rest) count env (chain :: restChains) 0 =
        (0, 0, 0, failedResult chain m e (env 0 0 0).now) ::
          runChains (m :: rest) count env restChains 1)) := by
  constructor
  · intro hzero
    exact runChains_first_method_zero_success chain restChains env count m rest hws hzero
  · intro e herr hcount
    have h1 : runAttempts chain m (env 0 0) count 0 =
        [(0, failedResult chain m e (env 0 0 0).now)] :=
      runAttempts_first_error chain m (env 0 0) count e hws herr hcount
    have hzero : ((runAttempts chain m (env 0 0) count 0).filter
        (fun p => p.2.success)).length = 0 := by
      rw [h1]
      simp [failedResult]
    rw [runChains_first_method_zero_success chain restChains env count m rest hws hzero, h1]
    simp

/-- C4 witness: the concrete duplex chain whose first method's first
attempt fails contributes exactly one outcome and the run proceeds with
the next (HTTP) chain. -/
theorem c4_witness :
    chainW.connection_type = ConnectionType.WebSocket ∧
    test_method chainW m0 (envC4 0 0 0) = Except.error "连接WebSocket失败" ∧
    (1 : ℕ) ≤ 3 ∧
    runChains [m0, m1] 3 envC4 [chainW, chainH] 0 =
      (0, 0, 0, failedResult chainW m0 "连接WebSocket失败" (envC4 0 0 0).now) ::
        runChains [m0, m1] 3 envC4 [chainH] 1 :=
  ⟨rfl, rfl, by norm_num,
    (c4_endpoint_abort chainW [chainH] envC4 3 m0 [m1] rfl).2 "连接WebSocket失败" rfl
      (by norm_num)⟩

/-- C8: the run never aborts — `test_all_methods` always returns `Ok` —
and every executed attempt contributes exactly one recorded outcome: the
returned list is the per-attempt trace's outcomes, and each trace entry's
outcome is exactly the record of its single dispatch (the dispatched
result on success, the failed outcome carrying the error text on a
dispatcher error). -/
theorem c8_one_outcome_per_attempt (chains : List Chain) (methods : List RpcMethod)
    (count : ℕ) (env : ℕ → ℕ → ℕ → AttemptEnv) :
    test_all_methods chains methods count env =
      Except.ok ((runChains methods count env chains 0).map (fun p => p.2.2.2)) ∧
    (∀ s, test_all_methods chains methods count env ≠ Except.error s) ∧
    (∀ p, p ∈ runChains methods count env chains 0 →
      ∃ chain method, chains.get? p.1 = some chain ∧ methods.get? p.2.1 = some method ∧
        p.2.2.2 = recordAttempt chain method (env p.1 p.2.1 p.2.2.1)) := by
  refine ⟨rfl, ?_, ?_⟩
  · intro s h
    simp [test_all_methods] at h
  · intro p hp
    obtain ⟨-, chain, hget, method, hmget, heq⟩ :=
      runChains_sound methods count env chains 0 p hp
    rw [Nat.sub_zero] at hget
    exact ⟨chain, method, hget, hmget, heq⟩

/-- C8 witness: a one-chain, one-method, one-attempt run whose dispatch
fails still records exactly one outcome for the attempt. -/
theorem c8_witness :
    ((0, 0, 0, failedResult chainH m0 "发送 HTTP RPC 请求失败" 5) ∈
      runChains [m0] 1 envC9 [chainH] 0) ∧
    (∃ chain method, [chainH].get? 0 = some chain ∧ [m0].get? 0 = some method ∧
      failedResult chainH m0 "发送 HTTP RPC 请求失败" 5 =
        recordAttempt chain method (envC9 0 0 0)) := by
  have hp : (0, 0, 0, failedResult chainH m0 "发送 HTTP RPC 请求失败" 5) ∈
      runChains [m0] 1 envC9 [chainH] 0 := by decide
  exact ⟨hp, (c8_one_outcome_per_attempt [chainH] [m0] 1 envC9).2.2 _ hp⟩

/-- C9: whenever a trace entry's dispatch raised an error, the recorded
outcome has latencyMs exactly 0 and carries the wrapped error message —
the failed attempt's elapsed wall-clock time is never recorded. -/
theorem c9_error_outcome (chains : List Chain) (methods : List RpcMethod) (count : ℕ)
    (env : ℕ → ℕ → ℕ → AttemptEnv) (c m a : ℕ) (r : RpcResult) (chain : Chain)
    (method : RpcMethod) (e : String)
    (hp : (c, m, a, r) ∈ runChains methods count env chains 0)
    (hchain : chains.get? c = some chain) (hmethod : methods.get? m = some method)
    (herr : test_method chain method (env c m a) = Except.error e) :
    r.latency_ms = 0 ∧ r.error = some ("测试失败: " ++ e) := by
  obtain ⟨-, chain2, hget2, method2, hmget2, heq⟩ :=
    runChains_sound methods count env chains 0 (c, m, a, r) hp
  rw [Nat.sub_zero] at hget2
  rw [hchain] at hget2
  rw [hmethod] at hmget2
  have hc2 : chain = chain2 := Option.some.inj hget2
  have hm2 : method = method2 := Option.some.inj hmget2
  subst hc2
  subst hm2
  have heq2 : r = recordAttempt chain method (env c m a) := heq
  rw [heq2]
  simp [recordAttempt, herr, failedResult]

/-- C9 witness: the concrete failed HTTP dispatch records latency 0 and
the wrapped error message. -/
theorem c9_witness :
    ((0, 0, 0, failedResult chainH m0 "发送 HTTP RPC 请求失败" 5) ∈
      runChains [m0] 1 envC9 [chainH] 0) ∧
    [chainH].get? 0 = some chainH ∧ [m0].get? 0 = some m0 ∧
    test_method chainH m0 (envC9 0 0 0) = Except.error "发送 HTTP RPC 请求失败" ∧
    (failedResult chainH m0 "发送 HTTP RPC 请求失败" 5).latency_ms = 0 ∧
    (failedResult chainH m0 "发送 HTTP RPC 请求失败" 5).error =
      some ("测试失败: " ++ "发送 HTTP RPC 请求失败") := by
  have hp : (0, 0, 0, failedResult chainH m0 "发送 HTTP RPC 请求失败" 5) ∈
      runChains [m0] 1 envC9 [chainH] 0 := by decide
  have hout := c9_error_outcome [chainH] [m0] 1 envC9 0 0 0
    (failedResult chainH m0 "发送 HTTP RPC 请求失败" 5) chainH m0
    "发送 HTTP RPC 请求失败" hp rfl rfl rfl
  exact ⟨hp, rfl, rfl, rfl, hout.1, hout.2⟩

/-!
Statistics claims (C5, C6, C7).
-/

/-- C5: every produced statistic satisfies the aggregation invariants:
successCount ≤ callCount, successRate = successCount / callCount within
[0, 1], callCount and successCount come from the statistic's own group,
every latency field is computed only over the group's successful
attempts, and with zero successes all latency fields are exactly 0 while
the rate is still the quotient. -/
theorem c5_stats_invariants (results : List RpcResult) (stat : MethodStats)
    (hstat : stat ∈ calculate_stats results) :
    stat.success_count ≤ stat.call_count ∧
    stat.success_rate = (stat.success_count : ℚ) / (stat.call_count : ℚ) ∧
    0 ≤ stat.success_rate ∧
    stat.success_rate ≤ 1 ∧
    stat.call_count = (groupOf results stat).length ∧
    stat.success_count = ((groupOf results stat).filter (fun r => r.success)).length ∧
    stat.min_latency = listMin (successLatencies (groupOf results stat)) ∧
    stat.max_latency = listMax (successLatencies (groupOf results stat)) ∧
    stat.avg_latency = listAvg (successLatencies (groupOf results stat)) ∧
    stat.median_latency = medianCode (List.insertionSort (fun a b => a ≤ b)
      (successLatencies (groupOf results stat))) ∧
    stat.p95_latency = p95Code (List.insertionSort (fun a b => a ≤ b)
      (successLatencies (groupOf results stat))) ∧
    (stat.success_count = 0 →
      stat.min_latency = 0 ∧ stat.max_latency = 0 ∧ stat.avg_latency = 0 ∧
      stat.median_latency = 0 ∧ stat.p95_latency = 0) := by
  obtain ⟨k, hk, rfl⟩ := mem_calculate_stats results stat hstat
  have hgroup : groupOf results (mkStats k (results.filter (fun r => resultKey r = k))) =
      results.filter (fun r => resultKey r = k) :=
    groupOf_mkStats results k (results.filter (fun r => resultKey r = k))
  have hne : results.filter (fun r => resultKey r = k) ≠ [] := group_nonempty results k hk
  have hlen : 0 < (results.filter (fun r => resultKey r = k)).length :=
    List.length_pos.mpr hne
  have h1 : (mkStats k (results.filter (fun r => resultKey r = k))).success_count ≤
      (mkStats k (results.filter (fun r => resultKey r = k))).call_count := by
    rw [mkStats_success_count, mkStats_call_count]
    exact List.length_filter_le _ _
  have h2 : (mkStats k (results.filter (fun r => resultKey r = k))).success_rate =
      ((mkStats k (results.filter (fun r => resultKey r = k))).success_count : ℚ) /
        ((mkStats k (results.filter (fun r => resultKey r = k))).call_count : ℚ) := by
    rw [mkStats_success_rate, mkStats_success_count, mkStats_call_count]
  have h3 : 0 ≤ (mkStats k (results.filter (fun r => resultKey r = k))).success_rate := by
    rw [h2]
    exact div_nonneg (Nat.cast_nonneg _) (Nat.cast_nonneg _)
  have h4 : (mkStats k (results.filter (fun r => resultKey r = k))).success_rate ≤ 1 := by
    rw [h2]
    exact div_le_one_of_le₀ (by exact_mod_cast h1) (Nat.cast_nonneg _)
  refine ⟨h1, h2, h3, h4, ?_, ?_, ?_, ?_, ?_, ?_, ?_, ?_⟩
  · rw [hgroup, mkStats_call_count]
  · rw [hgroup, mkStats_success_count]
  · rw [hgroup]
    exact mkStats_min _ _
  · rw [hgroup]
    exact mkStats_max _ _
  · rw [hgroup]
    exact mkStats_avg _ _
  · rw [hgroup]
    exact mkStats_median _ _
  · rw [hgroup]
    exact mkStats_p95 _ _
  · intro h0
    rw [mkStats_success_count] at h0
    have hfe : (results.filter (fun r => resultKey r = k)).filter (fun r => r.success) = [] :=
      List.length_eq_zero.mp h0
    have hsl : successLatencies (results.filter (fun r => resultKey r = k)) = [] := by
      rw [successLatencies, hfe]
      rfl
    refine ⟨?_, ?_, ?_, ?_, ?_⟩
    · rw [mkStats_min, hsl]
      rfl
    · rw [mkStats_max, hsl]
      rfl
    · rw [mkStats_avg, hsl]
      simp [listAvg]
    · rw [mkStats_median, hsl]
      rfl
    · rw [mkStats_p95, hsl]
      rfl

/-- A failing single-attempt fixture for the zero-success group. -/
def rC5 : RpcResult :=
  { chain := "ETH-HTTP", endpoint := "https://node.example", method := "eth_blockNumber",
    success := false, latency_ms := 0, error := some "测试失败: x", timestamp := 0 }

/-- Result list with one all-failed group. -/
def resultsC5 : List RpcResult := [rC5]

/-- The statistic produced for the all-failed group. -/
def statC5 : MethodStats :=
  mkStats (resultKey rC5) (resultsC5.filter (fun r => resultKey r = resultKey rC5))

/-- C5 witness: the concrete all-failed group's statistic satisfies the
invariants. -/
theorem c5_witness :
    statC5 ∈ calculate_stats resultsC5 ∧
    statC5.success_count ≤ statC5.call_count ∧ 0 ≤ statC5.success_rate := by
  have hmem : statC5 ∈ calculate_stats resultsC5 := List.mem_singleton.mpr rfl
  obtain ⟨h1, -, h3, -⟩ := c5_stats_invariants resultsC5 statC5 hmem
  exact ⟨hmem, h1, h3⟩

/-- C6: for every statistic with at least one success, median and p95 are
computed over an ascending-sorted copy of the group's successful
latencies, by the claimed formulas (median: mean of the two middle values
when even, the middle value when odd; p95: index floor(count * 0.95)
clamped to the last index), so a single latency is its own p95 and the
p95 of 10 latencies is the last. -/
theorem c6_median_p95 (results : List RpcResult) (stat : MethodStats)
    (hstat : stat ∈ calculate_stats results) (hpos : 1 ≤ stat.success_count) :
    ∃ sorted : List ℚ,
      sorted.Sorted (fun a b => a ≤ b) ∧
      sorted.Perm (successLatencies (groupOf results stat)) ∧
      stat.median_latency = claimMedian sorted ∧
      stat.p95_latency = claimP95 sorted ∧
      (sorted.length = 1 → stat.p95_latency = sorted.getD 0 0) ∧
      (sorted.length = 10 → stat.p95_latency = sorted.getD 9 0) := by
  obtain ⟨k, hk, rfl⟩ := mem_calculate_stats results stat hstat
  rw [mkStats_success_count] at hpos
  have hgroup : groupOf results (mkStats k (results.filter (fun r => resultKey r = k))) =
      results.filter (fun r => resultKey r = k) :=
    groupOf_mkStats results k (results.filter (fun r => resultKey r = k))
  have hslen :
      (successLatencies (results.filter (fun r => resultKey r = k))).length =
        ((results.filter (fun r => resultKey r = k)).filter (fun r => r.success)).length := by
    rw [successLatencies, List.length_map]
  have hsne :
      List.insertionSort (fun a b => a ≤ b)
        (successLatencies (results.filter (fun r => resultKey r = k))) ≠ [] := by
    intro h
    have hzero := congrArg List.length h
    rw [List.length_insertionSort, hslen] at hzero
    simp only [List.length_nil] at hzero
    omega
  have hmed : (mkStats k (results.filter (fun r => resultKey r = k))).median_latency =
      claimMedian (List.insertionSort (fun a b => a ≤ b)
        (successLatencies (results.filter (fun r => resultKey r = k)))) := by
    rw [mkStats_median]
    exact medianCode_eq_claimMedian _
  have hp95 : (mkStats k (results.filter (fun r => resultKey r = k))).p95_latency =
      claimP95 (List.insertionSort (fun a b => a ≤ b)
        (successLatencies (results.filter (fun r => resultKey r = k)))) := by
    rw [mkStats_p95]
    exact p95Code_eq_claimP95 _ hsne
  refine ⟨List.insertionSort (fun a b => a ≤ b)
      (successLatencies (results.filter (fun r => resultKey r = k))),
    List.sorted_insertionSort _ _, ?_, hmed, hp95, ?_, ?_⟩
  · rw [hgroup]
    exact List.perm_insertionSort _ _
  · intro h1
    rw [hp95]
    unfold claimP95
    rw [h1]
    have hf : Nat.floor ((1 : ℚ) * (95 / 100)) = 0 := by
      rw [one_mul]
      exact Nat.floor_eq_zero.mpr (by norm_num)
    rw [Nat.cast_one, hf]
    simp
  · intro h10
    rw [hp95]
    unfold claimP95
    rw [h10]
    have hf : Nat.floor (((10 : ℕ) : ℚ) * (95 / 100)) = 9 := by
      rw [Nat.floor_eq_iff (by norm_num)]
      norm_num
    rw [hf]
    simp

/-- A successful single-attempt fixture. -/
def rC6 : RpcResult :=
  { chain := "ETH-HTTP", endpoint := "https://node.example", method := "eth_chainId",
    success := true, latency_ms := 42, error := none, timestamp := 0 }

/-- Result list with one single-success group. -/
def resultsC6 : List RpcResult := [rC6]

/-- The statistic produced for the single-success group. -/
def statC6 : MethodStats :=
  mkStats (resultKey rC6) (resultsC6.filter (fun r => resultKey r = resultKey rC6))

/-- C6 witness: the single-success group's median and p95 follow the
claimed formulas. -/
theorem c6_witness :
    statC6 ∈ calculate_stats resultsC6 ∧ 1 ≤ statC6.success_count ∧
    ∃ sorted : List ℚ,
      sorted.Sorted (fun a b => a ≤ b) ∧
      sorted.Perm (successLatencies (groupOf resultsC6 statC6)) ∧
      statC6.median_latency = claimMedian sorted ∧
      statC6.p95_latency = claimP95 sorted ∧
      (sorted.length = 1 → statC6.p95_latency = sorted.getD 0 0) ∧
      (sorted.length = 10 → statC6.p95_latency = sorted.getD 9 0) := by
  have hmem : statC6 ∈ calculate_stats resultsC6 := List.mem_singleton.mpr rfl
  have hpos : 1 ≤ statC6.success_count := by decide
  exact ⟨hmem, hpos, c6_median_p95 resultsC6 statC6 hmem hpos⟩

/-- Helper: `getD` agrees with `get` at an in-range index. -/
theorem getD_eq_get_of_lt (l : List MethodStats) (n : ℕ) (d : MethodStats)
    (h : n < l.length) : l.getD n d = l.get ⟨n, h⟩ := by
  rw [List.getD_eq_getElem?_getD, List.getElem?_eq_getElem h]
  rfl

/-- C7: the aggregated list is sorted by chain name ascending, then
success rate descending, then average latency ascending; consequently,
among two entries with the same chain name the earlier one has the
greater-or-equal success rate, whatever their latencies. -/
theorem c7_ranking (results : List RpcResult) :
    (calculate_stats results).Sorted statLe ∧
    ∀ (d : MethodStats) (i j : ℕ), i < j → j < (calculate_stats results).length →
      ((calculate_stats results).getD i d).chain =
        ((calculate_stats results).getD j d).chain →
      ((calculate_stats results).getD j d).success_rate ≤
        ((calculate_stats results).getD i d).success_rate := by
  have hsorted : (calculate_stats results).Sorted statLe := by
    unfold calculate_stats
    simp only []
    exact List.sorted_insertionSort statLe _
  refine ⟨hsorted, ?_⟩
  intro d i j hij hj hchain
  have hi : i < (calculate_stats results).length := lt_trans hij hj
  have hrel : statLe ((calculate_stats results).get ⟨i, hi⟩)
      ((calculate_stats results).get ⟨j, hj⟩) :=
    hsorted.rel_get_of_lt hij
  rw [getD_eq_get_of_lt _ i d hi, getD_eq_get_of_lt _ j d hj] at hchain ⊢
  rcases hrel with hlt | ⟨heq, hinner⟩
  · rw [hchain] at hlt
    exact absurd hlt (lt_irrefl _)
  · rcases hinner with hr | ⟨hre, -⟩
    · exact le_of_lt hr
    · exact le_of_eq hre.symm

/-- Successful attempt on method m1 of the C7 fixture (rate 1.0 group). -/
def rC7a : RpcResult :=
  { chain := "ETH", endpoint := "u", method := "m1", success := true,
    latency_ms := 50, error := none, timestamp := 0 }

/-- Successful attempt on method m2 of the C7 fixture (rate 0.5 group). -/
def rC7b : RpcResult :=
  { chain := "ETH", endpoint := "u", method := "m2", success := true,
    latency_ms := 5, error := none, timestamp := 0 }

/-- Failed attempt on method m2 of the C7 fixture (rate 0.5 group). -/
def rC7c : RpcResult :=
  { chain := "ETH", endpoint := "u", method := "m2", success := false,
    latency_ms := 0, error := some "e", timestamp := 0 }

/-- Result list producing two same-chain groups with rates 1.0 and 0.5. -/
def resultsC7 : List RpcResult := [rC7a, rC7b, rC7c]

/-- Fallback statistic for out-of-range `getD`. -/
def dStat : MethodStats :=
  { chain := "", endpoint := "", method := "", call_count := 0, success_count := 0,
    min_latency := 0, max_latency := 0, avg_latency := 0, median_latency := 0,
    p95_latency := 0, success_rate := 0 }

/-- C7 witness: in the two-group same-chain fixture the earlier entry's
success rate dominates the later one's. -/
theorem c7_witness :
    (0 : ℕ) < 1 ∧ 1 < (calculate_stats resultsC7).length ∧
    ((calculate_stats resultsC7).getD 0 dStat).chain =
      ((calculate_stats resultsC7).getD 1 dStat).chain ∧
    ((calculate_stats resultsC7).getD 1 dStat).success_rate ≤
      ((calculate_stats resultsC7).getD 0 dStat).success_rate := by
  have hlen : (calculate_stats resultsC7).length = 2 := by
    unfold calculate_stats
    simp only []
    rw [List.length_insertionSort, List.length_map]
    decide
  have hall : ∀ s ∈ calculate_stats resultsC7, s.chain = "ETH" := by
    intro s hs
    obtain ⟨k, hk, rfl⟩ := mem_calculate_stats resultsC7 s hs
    rw [mkStats_chain]
    have hk2 := List.mem_dedup.mp hk
    simp [resultsC7, resultKey, rC7a, rC7b, rC7c] at hk2
    rcases hk2 with rfl | rfl
    · rfl
    · rfl
  have h0 : (calculate_stats resultsC7).getD 0 dStat ∈ calculate_stats resultsC7 := by
    rw [getD_eq_get_of_lt _ 0 dStat (by omega)]
    exact List.get_mem _ _ _
  have h1 : (calculate_stats resultsC7).getD 1 dStat ∈ calculate_stats resultsC7 := by
    rw [getD_eq_get_of_lt _ 1 dStat (by omega)]
    exact List.get_mem _ _ _
  have hchain : ((calculate_stats resultsC7).getD 0 dStat).chain =
      ((calculate_stats resultsC7).getD 1 dStat).chain := by
    rw [hall _ h0, hall _ h1]
  exact ⟨by norm_num, by omega,
    hchain, (c7_ranking resultsC7).2 dStat 0 1 (by norm_num) (by omega) hchain⟩

end EthRpc
